import Mathlib

/-!
Verification of the frame orchestration and camera pipeline of the black-hole
visualization (`src/main.cpp`). Float arithmetic of the source is modelled as
exact arithmetic over `ℚ` (for rational constants, letterboxing and zoom) and
`ℝ` (for the trigonometric camera-basis computation). Machine `uint32_t`
quantities are modelled as `ℕ`; the float-to-unsigned conversions in the
letterbox computation truncate nonnegative values, i.e. take floors.
-/

namespace BHSim

/-- Pan sensitivity, `kPan = 0.002f` in `main.cpp`. -/
def kPan : ℚ := 2 / 1000

/-- Zoom sensitivity, `kZoom = 25.0e9f` in `main.cpp`. -/
def kZoom : ℚ := 25000000000

/-- Speed of light, `kC = 299792458.0f`. -/
def kC : ℚ := 299792458

/-- Gravitational constant, `kG = 6.67430e-11f`. -/
def kG : ℚ := 667430 / 10000000000000000

/-- Central mass, `kBlackHoleMass = 8.54e36f`. -/
def kBlackHoleMass : ℚ := 854 * 10 ^ 34

/-- Schwarzschild radius, `kBlackHoleRadius = 2 * kG * kBlackHoleMass / (kC * kC)`. -/
def kBlackHoleRadius : ℚ := 2 * kG * kBlackHoleMass / (kC * kC)

/-- Inner disk radius, default member initializer `DiskR1 = kBlackHoleRadius * 2.2f`. -/
def kDiskR1 : ℚ := kBlackHoleRadius * (22 / 10)

/-- Outer disk radius, default member initializer `DiskR2 = kBlackHoleRadius * 5.2f`. -/
def kDiskR2 : ℚ := kBlackHoleRadius * (52 / 10)

/-- Modelled from the spec: the fixed output-image width `WIDTH` comes from
`config.h`, which is not among the sources; the spec fixes the image aspect as
960:720 and the window is created at 960x720. -/
def WIDTH : ℕ := 960

/-- Modelled from the spec: the fixed output-image height `HEIGHT` from
`config.h` (see `WIDTH`). -/
def HEIGHT : ℕ := 720

/-- Vertical field of view, `kFov = glm::radians(60.0f)`, i.e. π/3 radians. -/
noncomputable def kFov : ℝ := Real.pi / 3

/-- The pitch clamp bound, `kClamp = glm::pi<float>() / 2.0f - 0.01f` in `main`. -/
noncomputable def kClamp : ℝ := Real.pi / 2 - 1 / 100

/-- 3-vector of reals, modelling `glm::vec3`. -/
@[ext]
structure Vec3 where
  x : ℝ
  y : ℝ
  z : ℝ

/-- Dot product of two vectors. -/
def dot (a b : Vec3) : ℝ := a.x * b.x + a.y * b.y + a.z * b.z

/-- Cross product, `glm::cross`. -/
def cross (a b : Vec3) : Vec3 :=
  ⟨a.y * b.z - a.z * b.y, a.z * b.x - a.x * b.z, a.x * b.y - a.y * b.x⟩

/-- Euclidean norm of a vector. -/
noncomputable def vnorm (a : Vec3) : ℝ := Real.sqrt (dot a a)

/-- `glm::normalize`: the vector divided by its norm. -/
noncomputable def normalize (a : Vec3) : Vec3 :=
  ⟨a.x / vnorm a, a.y / vnorm a, a.z / vnorm a⟩

/-- The world-up reference vector `glm::vec3(0, 1, 0)`. -/
def worldUp : Vec3 := ⟨0, 1, 0⟩

/-- The uniform parameter record handed to the kernel (`struct UniformBuffer`). -/
structure UniformBuffer where
  CameraPosition : Vec3
  TanHalfFov : ℝ
  CameraRight : Vec3
  Aspect : ℝ
  CameraUp : Vec3
  ObjectCount : ℕ
  CameraForward : Vec3
  DiskR1 : ℝ
  DiskR2 : ℝ

/-- The frame-parameter rebuild block of `Draw` (`main.cpp` lines 190-202):
forward from the spherical parameterization (then normalized), position
`-forward * distance`, right `normalize(cross(forward, worldUp))`,
up `normalize(cross(right, forward))`; `ObjectCount`, `DiskR1`, `DiskR2`
are left as they were. -/
noncomputable def buildUniform (yaw pitch dist : ℝ) (u : UniformBuffer) : UniformBuffer :=
  let fwd := normalize ⟨Real.cos pitch * Real.cos yaw, Real.sin pitch,
    Real.cos pitch * Real.sin yaw⟩
  let pos : Vec3 := ⟨-fwd.x * dist, -fwd.y * dist, -fwd.z * dist⟩
  let right := normalize (cross fwd worldUp)
  let up := normalize (cross right fwd)
  { u with
    TanHalfFov := Real.tan (kFov * (1 / 2))
    Aspect := (WIDTH : ℝ) / (HEIGHT : ℝ)
    CameraForward := fwd
    CameraPosition := pos
    CameraRight := right
    CameraUp := up }

/-- Host-side mutable state: the orbit camera statics `yaw`, `pitch`,
`distance`, the `uniformBuffer` static, and the event-loop `running` flag. -/
structure AppState where
  yaw : ℝ
  pitch : ℝ
  distance : ℝ
  uniform : UniformBuffer
  running : Bool

/-- The input events the loop recognizes: wheel scroll (vertical delta),
mouse motion (with the primary-button state and x/y deltas), quit. -/
inductive Event where
  | wheel (y : ℝ)
  | motion (leftButton : Bool) (xrel yrel : ℝ)
  | quit

/-- `std::clamp v lo hi` for `lo ≤ hi`: `lo` if `v < lo`, `hi` if `v > hi`, else `v`. -/
noncomputable def sclamp (v lo hi : ℝ) : ℝ := min hi (max lo v)

/-- One case of the event `switch` in `main` (`main.cpp` lines 270-286):
wheel sets `distance := max 1 (distance - y * kZoom)`; motion with the left
button held adds `xrel * kPan` to yaw and clamps `pitch + yrel * kPan` to
`[-kClamp, kClamp]`; quit clears `running`. -/
noncomputable def applyEvent (s : AppState) (e : Event) : AppState :=
  match e with
  | .wheel y => { s with distance := max 1 (s.distance - y * (kZoom : ℝ)) }
  | .motion lb dx dy =>
    if lb then
      { s with
        yaw := s.yaw + dx * (kPan : ℝ)
        pitch := sclamp (s.pitch + dy * (kPan : ℝ)) (-kClamp) kClamp }
    else s
  | .quit => { s with running := false }

/-- The `uniformBuffer` static after `Init`: zero-initialized static storage,
default member initializers for the disk radii, and `ObjectCount = 3` set
during the scene upload. -/
noncomputable def initUniform : UniformBuffer :=
  { CameraPosition := ⟨0, 0, 0⟩
    TanHalfFov := 0
    CameraRight := ⟨0, 0, 0⟩
    Aspect := 0
    CameraUp := ⟨0, 0, 0⟩
    ObjectCount := 3
    CameraForward := ⟨0, 0, 0⟩
    DiskR1 := (kDiskR1 : ℝ)
    DiskR2 := (kDiskR2 : ℝ) }

/-- Host state on entry to the event loop: `yaw = pitch = 0`,
`distance = 1.0e11`, the post-`Init` uniform record, running. -/
noncomputable def initState : AppState :=
  { yaw := 0, pitch := 0, distance := 10 ^ 11, uniform := initUniform, running := true }

/-- A destination rectangle on the presentation target. -/
structure Rect where
  x : ℕ
  y : ℕ
  w : ℕ
  h : ℕ
deriving DecidableEq

/-- The letterbox computation of `Draw` (`main.cpp` lines 221-239) for a
target of size `w × h`: if the image aspect `WIDTH/HEIGHT` exceeds the target
aspect `w/h`, the image spans the full target width, with height
`⌊HEIGHT * w / WIDTH⌋` centered vertically; otherwise it spans the full
target height, with width `⌊WIDTH * h / HEIGHT⌋` centered horizontally.
The float-to-`uint32_t` conversions are floors of nonnegative values,
realized here by natural division. -/
def letterbox (w h : ℕ) : Rect :=
  if ((WIDTH : ℚ) / (HEIGHT : ℚ)) > ((w : ℚ) / (h : ℚ)) then
    let lH := HEIGHT * w / WIDTH
    { x := 0, y := (h - lH) / 2, w := w, h := lH }
  else
    let lW := WIDTH * h / HEIGHT
    { x := (w - lW) / 2, y := 0, w := lW, h := h }

/-- Work-group count along one dimension, `(dim + THREADS - 1) / THREADS`
with integer division (`main.cpp` lines 213-214). -/
def dispatchGroups (dim threads : ℕ) : ℕ := (dim + threads - 1) / threads

/-- GPU commands recorded by `Draw` that the claims observe: the compute
dispatch and the letterboxed blit (composite). -/
inductive Cmd where
  | dispatch (gx gy gz : ℕ)
  | blit (r : Rect)
deriving DecidableEq

/-- Outcome of one `Draw` call: command-buffer acquisition failed (nothing
acquired), the command buffer was canceled, or it was submitted with the
recorded commands. -/
inductive DrawResult where
  | noCommandBuffer
  | canceled
  | submitted (cmds : List Cmd)
deriving DecidableEq

/-- Externally determined outcomes of one `Draw` call: whether
`SDL_AcquireGPUCommandBuffer` succeeds, whether
`SDL_WaitAndAcquireGPUSwapchainTexture` succeeds, whether the acquired
texture pointer is non-null, the acquired width and height, and whether
`SDL_BeginGPUComputePass` succeeds. -/
structure DrawInput where
  commandBufferOk : Bool
  swapchainOk : Bool
  swapchainTextureOk : Bool
  width : ℕ
  height : ℕ
  computePassOk : Bool

/-- The `Draw` function (`main.cpp` lines 167-256), parameterized by the
work-group size `threads` (`THREADS` in `config.h`): acquisition failure
returns without a command buffer; swapchain failure cancels; a zero-area
target submits the empty stream; otherwise the uniform record is rebuilt,
and if the compute pass cannot begin the stream is submitted as recorded
(empty), else the dispatch and the letterboxed blit are recorded and
submitted. -/
noncomputable def drawStep (threads : ℕ) (s : AppState) (inp : DrawInput) :
    AppState × DrawResult :=
  if inp.commandBufferOk = false then (s, .noCommandBuffer)
  else if inp.swapchainOk = false then (s, .canceled)
  else if inp.swapchainTextureOk = false ∨ inp.width = 0 ∨ inp.height = 0 then
    (s, .submitted [])
  else
    let s2 := { s with uniform := buildUniform s.yaw s.pitch s.distance s.uniform }
    if inp.computePassOk = false then (s2, .submitted [])
    else
      let gx := dispatchGroups WIDTH threads
      let gy := dispatchGroups HEIGHT threads
      (s2, .submitted [.dispatch gx gy 1, .blit (letterbox inp.width inp.height)])

/-- One event-loop iteration: drain the pending events in order, then `Draw`. -/
noncomputable def mainIter (threads : ℕ) (s : AppState) (events : List Event)
    (inp : DrawInput) : AppState × DrawResult :=
  drawStep threads (events.foldl applyEvent s) inp

/-! Helper lemmas about the letterbox computation. -/

lemma letterbox_cond_iff (w h : ℕ) (hh : 0 < h) :
    (((WIDTH : ℚ) / (HEIGHT : ℚ)) > ((w : ℚ) / (h : ℚ))) ↔ w * HEIGHT < WIDTH * h := by
  rw [gt_iff_lt, div_lt_div_iff₀ (by exact_mod_cast hh) (by norm_num [HEIGHT])]
  exact_mod_cast Iff.rfl

lemma letterbox_tall (w h : ℕ) (hc : ((WIDTH : ℚ) / (HEIGHT : ℚ)) > ((w : ℚ) / (h : ℚ))) :
    letterbox w h =
      { x := 0, y := (h - HEIGHT * w / WIDTH) / 2, w := w, h := HEIGHT * w / WIDTH } := by
  rw [letterbox, if_pos hc]

lemma letterbox_wide (w h : ℕ) (hc : ¬ ((WIDTH : ℚ) / (HEIGHT : ℚ)) > ((w : ℚ) / (h : ℚ))) :
    letterbox w h =
      { x := (w - WIDTH * h / HEIGHT) / 2, y := 0, w := WIDTH * h / HEIGHT, h := h } := by
  rw [letterbox, if_neg hc]

lemma letterbox_height_le (w h : ℕ) (hc : w * HEIGHT < WIDTH * h) :
    HEIGHT * w / WIDTH ≤ h := by
  simp only [WIDTH, HEIGHT] at hc ⊢
  omega

lemma letterbox_width_le (w h : ℕ) (hc : WIDTH * h ≤ w * HEIGHT) :
    WIDTH * h / HEIGHT ≤ w := by
  simp only [WIDTH, HEIGHT] at hc ⊢
  omega

/-- C1: the claim orients the letterbox branches the wrong way around. At
target (1920, 1080) the target aspect 16:9 exceeds the image aspect 4:3, yet
the computed rectangle is NOT stretched to the full target width (its width is
1440, not 1920) and the bars are on the left/right (x = 240 ≠ 0, y = 0), not
top/bottom. -/
theorem C1_counterexample :
    ((1920 : ℚ) / 1080 > (WIDTH : ℚ) / (HEIGHT : ℚ)) ∧
    (letterbox 1920 1080).w ≠ 1920 ∧
    (letterbox 1920 1080).x ≠ 0 ∧
    (letterbox 1920 1080).y = 0 := by
  have hc : ¬ ((WIDTH : ℚ) / (HEIGHT : ℚ)) > ((1920 : ℕ) : ℚ) / ((1080 : ℕ) : ℚ) := by
    norm_num [WIDTH, HEIGHT]
  rw [letterbox_wide 1920 1080 hc]
  refine ⟨by norm_num [WIDTH, HEIGHT], ?_, ?_, rfl⟩ <;> norm_num [WIDTH, HEIGHT]

/-- C1 (amended): the composite letterboxes the fixed-resolution image
preserving its aspect ratio, with the branches as the code has them: if
image-aspect > target-aspect the image spans the full target width with height
`⌊HEIGHT·w/WIDTH⌋` centered vertically (bars top/bottom); otherwise (in
particular whenever target-aspect > image-aspect) it spans the full target
height with width `⌊WIDTH·h/HEIGHT⌋` centered horizontally (bars left/right). -/
theorem C1_letterbox_amended (w h : ℕ) :
    (((WIDTH : ℚ) / (HEIGHT : ℚ)) > ((w : ℚ) / (h : ℚ)) →
      letterbox w h =
        { x := 0, y := (h - HEIGHT * w / WIDTH) / 2, w := w, h := HEIGHT * w / WIDTH }) ∧
    (((w : ℚ) / (h : ℚ)) ≥ ((WIDTH : ℚ) / (HEIGHT : ℚ)) →
      letterbox w h =
        { x := (w - WIDTH * h / HEIGHT) / 2, y := 0, w := WIDTH * h / HEIGHT, h := h }) := by
  constructor
  · exact letterbox_tall w h
  · exact fun hge => letterbox_wide w h (not_lt.mpr hge)

/-- Witness for `C1_letterbox_amended` at the concrete target (1920, 1080):
the target aspect is at least the image aspect and the rectangle spans the
full height with left/right bars. -/
theorem C1_letterbox_amended_witness :
    (((1920 : ℕ) : ℚ) / ((1080 : ℕ) : ℚ)) ≥ ((WIDTH : ℚ) / (HEIGHT : ℚ)) ∧
    letterbox 1920 1080 =
      { x := (1920 - WIDTH * 1080 / HEIGHT) / 2, y := 0,
        w := WIDTH * 1080 / HEIGHT, h := 1080 } := by
  have hge : (((1920 : ℕ) : ℚ) / ((1080 : ℕ) : ℚ)) ≥ ((WIDTH : ℚ) / (HEIGHT : ℚ)) := by
    norm_num [WIDTH, HEIGHT]
  exact ⟨hge, (C1_letterbox_amended 1920 1080).2 hge⟩

/-- C7: for the fixed 4:3 image, target (1920, 1080) yields the rectangle
(x, y, w, h) = (240, 0, 1440, 1080): full target height, horizontally centered
(240 + 1440 + 240 = 1920), bars left/right; target (800, 1000) yields
(0, 200, 800, 600): full target width, vertically centered
(200 + 600 + 200 = 1000), bars top/bottom. -/
theorem C7_letterbox_examples :
    letterbox 1920 1080 = { x := 240, y := 0, w := 1440, h := 1080 } ∧
    letterbox 800 1000 = { x := 0, y := 200, w := 800, h := 600 } := by
  constructor
  · rw [letterbox, if_neg] <;> norm_num [WIDTH, HEIGHT]
  · rw [letterbox, if_pos] <;> norm_num [WIDTH, HEIGHT]

/-- C9: for every target with nonzero width and height the computed letterbox
rectangle lies inside the target: `x + w ≤ width` and `y + h ≤ height` (the
offsets are naturals, hence nonnegative), so the composite never writes
outside the acquired target. -/
theorem C9_letterbox_in_bounds (w h : ℕ) (_hw : 0 < w) (hh : 0 < h) :
    (letterbox w h).x + (letterbox w h).w ≤ w ∧
    (letterbox w h).y + (letterbox w h).h ≤ h := by
  by_cases hc : ((WIDTH : ℚ) / (HEIGHT : ℚ)) > ((w : ℚ) / (h : ℚ))
  · rw [letterbox_tall w h hc]
    have hcn : w * HEIGHT < WIDTH * h := (letterbox_cond_iff w h hh).mp hc
    dsimp only
    simp only [WIDTH, HEIGHT] at hcn ⊢
    omega
  · rw [letterbox_wide w h hc]
    have hcn : ¬ w * HEIGHT < WIDTH * h := (letterbox_cond_iff w h hh).not.mp hc
    dsimp only
    simp only [WIDTH, HEIGHT] at hcn ⊢
    omega

/-- Witness for `C9_letterbox_in_bounds` at the concrete target (1920, 1080). -/
theorem C9_letterbox_in_bounds_witness :
    (0 < 1920 ∧ 0 < 1080) ∧
    (letterbox 1920 1080).x + (letterbox 1920 1080).w ≤ 1920 ∧
    (letterbox 1920 1080).y + (letterbox 1920 1080).h ≤ 1080 :=
  ⟨⟨by norm_num, by norm_num⟩,
    C9_letterbox_in_bounds 1920 1080 (by norm_num) (by norm_num)⟩

/-! Helper lemmas about events and `Draw`. -/

lemma applyEvent_distance_ge (s : AppState) (e : Event) (h : 1 ≤ s.distance) :
    1 ≤ (applyEvent s e).distance := by
  cases e with
  | wheel y => simp only [applyEvent]
               exact le_max_left 1 _
  | motion lb dx dy => by_cases hl : lb <;> simp [applyEvent, hl, h]
  | quit => simpa [applyEvent] using h

lemma drawStep_fst_running (threads : ℕ) (s : AppState) (inp : DrawInput) :
    ((drawStep threads s inp).1).running = s.running := by
  rw [drawStep]
  split_ifs <;> rfl

lemma dispatchGroups_spec (a b : ℕ) (ha : 0 < a) (hb : 0 < b) :
    a ≤ dispatchGroups a b * b ∧ (dispatchGroups a b - 1) * b < a ∧
      dispatchGroups a b = ⌈(a : ℚ) / (b : ℚ)⌉₊ := by
  have hdm : (a + b - 1) / b * b + (a + b - 1) % b = a + b - 1 := Nat.div_add_mod' _ _
  have hmod : (a + b - 1) % b < b := Nat.mod_lt _ hb
  have hgd : dispatchGroups a b = (a + b - 1) / b := rfl
  set q := (a + b - 1) / b with hqdef
  set m := q * b with hmdef
  have hle : a ≤ m := by omega
  have hq1 : 1 ≤ q := by
    rcases Nat.eq_zero_or_pos q with h0 | h1
    · exfalso
      have : m = 0 := by rw [hmdef, h0, Nat.zero_mul]
      omega
    · exact h1
  have hlt : (q - 1) * b < a := by
    have hsub : (q - 1) * b = m - b := by
      rw [hmdef, Nat.sub_mul, Nat.one_mul]
    omega
  refine ⟨by rw [hgd]; exact hmdef ▸ hle, by rw [hgd]; exact hlt, ?_⟩
  rw [hgd]
  have hbq : (0 : ℚ) < (b : ℚ) := by exact_mod_cast hb
  have hceil : ⌈(a : ℚ) / (b : ℚ)⌉₊ = q := by
    rw [Nat.ceil_eq_iff (by omega)]
    constructor
    · rw [lt_div_iff₀ hbq]
      exact_mod_cast hlt
    · rw [div_le_iff₀ hbq]
      exact_mod_cast hle
  exact hceil.symm

/-- C4: a wheel event sets `distance := max 1 (distance - y * kZoom)`, so after
any sequence of events starting at distance ≥ 1 the distance stays ≥ 1; a delta
driving the distance to 1 or below yields exactly 1; and at the floor any
further inward scroll is idempotent (stays exactly 1). -/
theorem C4_distance_floor :
    (∀ (s : AppState) (evs : List Event), 1 ≤ s.distance →
        1 ≤ (evs.foldl applyEvent s).distance) ∧
    (∀ (s : AppState) (y : ℝ), s.distance - y * (kZoom : ℝ) ≤ 1 →
        (applyEvent s (Event.wheel y)).distance = 1) ∧
    (∀ (s : AppState) (y : ℝ), 0 ≤ y → s.distance = 1 →
        (applyEvent s (Event.wheel y)).distance = 1) := by
  refine ⟨?_, ?_, ?_⟩
  · intro s evs
    induction evs generalizing s with
    | nil => exact fun h => h
    | cons e tl ih => exact fun h => ih _ (applyEvent_distance_ge s e h)
  · intro s y h
    simp [applyEvent, max_eq_left h]
  · intro s y hy hd
    have hz : (0 : ℝ) ≤ (kZoom : ℝ) := by norm_num [kZoom]
    have h1 : s.distance - y * (kZoom : ℝ) ≤ 1 := by nlinarith
    simp [applyEvent, max_eq_left h1]

/-- Witness for `C4_distance_floor`: from the initial distance `1.0e11`, a
wheel delta of 5 keeps the distance ≥ 1, and a delta of `1.0e13` floors it at
exactly 1. -/
theorem C4_distance_floor_witness :
    (1 ≤ initState.distance ∧
      1 ≤ (([Event.wheel 5]).foldl applyEvent initState).distance) ∧
    (initState.distance - 10000000000000 * (kZoom : ℝ) ≤ 1 ∧
      (applyEvent initState (Event.wheel 10000000000000)).distance = 1) := by
  have h1 : 1 ≤ initState.distance := by norm_num [initState]
  have h2 : initState.distance - 10000000000000 * (kZoom : ℝ) ≤ 1 := by
    norm_num [initState, kZoom]
  exact ⟨⟨h1, C4_distance_floor.1 initState [Event.wheel 5] h1⟩,
    ⟨h2, C4_distance_floor.2.1 initState 10000000000000 h2⟩⟩

/-- C5: when the command buffer is acquired and swapchain acquisition succeeds
but the target has zero area (null texture, zero width, or zero height), the
command stream is submitted — not canceled — and contains no compute dispatch
and no composite blit. -/
theorem C5_zero_area_submits_empty (threads : ℕ) (s : AppState) (inp : DrawInput)
    (h1 : inp.commandBufferOk = true) (h2 : inp.swapchainOk = true)
    (h3 : inp.swapchainTextureOk = false ∨ inp.width = 0 ∨ inp.height = 0) :
    ∃ cmds, (drawStep threads s inp).2 = DrawResult.submitted cmds ∧
      (∀ gx gy gz, Cmd.dispatch gx gy gz ∉ cmds) ∧ (∀ r, Cmd.blit r ∉ cmds) := by
  refine ⟨[], ?_, by simp, by simp⟩
  rw [drawStep, if_neg (by simp [h1]), if_neg (by simp [h2]), if_pos h3]

/-- Witness for `C5_zero_area_submits_empty` on an acquired target of width 0. -/
theorem C5_zero_area_submits_empty_witness :
    ((DrawInput.mk true true true 0 720 true).commandBufferOk = true ∧
      (DrawInput.mk true true true 0 720 true).swapchainOk = true ∧
      ((DrawInput.mk true true true 0 720 true).swapchainTextureOk = false ∨
        (DrawInput.mk true true true 0 720 true).width = 0 ∨
        (DrawInput.mk true true true 0 720 true).height = 0)) ∧
    ∃ cmds,
      (drawStep 16 initState (DrawInput.mk true true true 0 720 true)).2 =
        DrawResult.submitted cmds ∧
      (∀ gx gy gz, Cmd.dispatch gx gy gz ∉ cmds) ∧ (∀ r, Cmd.blit r ∉ cmds) :=
  ⟨⟨rfl, rfl, Or.inr (Or.inl rfl)⟩,
    C5_zero_area_submits_empty 16 initState _ rfl rfl (Or.inr (Or.inl rfl))⟩

/-- C6: the claim extends to "any later failure", but a compute-pass-begin
failure after a successful nonzero-area acquisition makes `Draw` SUBMIT the
command buffer (`main.cpp` lines 210-211), not cancel it: the result is a
submitted (empty) stream, not a canceled frame. -/
theorem C6_counterexample :
    (drawStep 16 initState (DrawInput.mk true true true 2 2 false)).2 =
      DrawResult.submitted [] ∧
    (drawStep 16 initState (DrawInput.mk true true true 2 2 false)).2 ≠
      DrawResult.canceled := by
  constructor <;> · rw [drawStep]; simp

/-- C6 (amended): a target-acquisition failure after the command buffer is
acquired cancels the recording — it is never submitted — and the frame is
abandoned with the state untouched; a compute-pass-begin failure abandons the
frame too but submits the (empty) partially recorded stream; in either case
the event loop's `running` flag is unaffected by the draw, so the loop
continues to the next iteration. -/
theorem C6_amended (threads : ℕ) (s : AppState) (evs : List Event) (inp : DrawInput) :
    (inp.commandBufferOk = true → inp.swapchainOk = false →
      drawStep threads s inp = (s, DrawResult.canceled)) ∧
    (inp.commandBufferOk = true → inp.swapchainOk = true →
      inp.swapchainTextureOk = true → 0 < inp.width → 0 < inp.height →
      inp.computePassOk = false →
      (drawStep threads s inp).2 = DrawResult.submitted []) ∧
    ((mainIter threads s evs inp).1.running = (evs.foldl applyEvent s).running) := by
  refine ⟨?_, ?_, ?_⟩
  · intro h1 h2
    rw [drawStep, if_neg (by simp [h1]), if_pos h2]
  · intro h1 h2 h3 h4 h5 h6
    have hw : inp.width ≠ 0 := by omega
    have hh : inp.height ≠ 0 := by omega
    rw [drawStep]
    simp [h1, h2, h3, h6, hw, hh]
  · rw [mainIter]
    exact drawStep_fst_running threads _ inp

/-- Witness for `C6_amended`: a concrete swapchain-acquisition failure is
canceled with the state unchanged. -/
theorem C6_amended_witness :
    ((DrawInput.mk true false true 2 2 true).commandBufferOk = true ∧
      (DrawInput.mk true false true 2 2 true).swapchainOk = false) ∧
    drawStep 16 initState (DrawInput.mk true false true 2 2 true) =
      (initState, DrawResult.canceled) :=
  ⟨⟨rfl, rfl⟩, (C6_amended 16 initState [] (DrawInput.mk true false true 2 2 true)).1 rfl rfl⟩

/-- C8: every frame that reaches the compute step records a dispatch whose 2D
group counts are `(dim + threads - 1) / threads = ⌈dim / threads⌉` over the
fixed image's width and height, and the grid covers the image exactly:
`groups * threads ≥ dim` while `(groups - 1) * threads < dim`. -/
theorem C8_dispatch_covers (threads : ℕ) (s : AppState) (inp : DrawInput)
    (hT : 0 < threads)
    (h1 : inp.commandBufferOk = true) (h2 : inp.swapchainOk = true)
    (h3 : inp.swapchainTextureOk = true) (h4 : 0 < inp.width) (h5 : 0 < inp.height)
    (h6 : inp.computePassOk = true) :
    ∃ cmds, (drawStep threads s inp).2 = DrawResult.submitted cmds ∧
      Cmd.dispatch (dispatchGroups WIDTH threads) (dispatchGroups HEIGHT threads) 1 ∈ cmds ∧
      dispatchGroups WIDTH threads = ⌈(WIDTH : ℚ) / (threads : ℚ)⌉₊ ∧
      dispatchGroups HEIGHT threads = ⌈(HEIGHT : ℚ) / (threads : ℚ)⌉₊ ∧
      WIDTH ≤ dispatchGroups WIDTH threads * threads ∧
      (dispatchGroups WIDTH threads - 1) * threads < WIDTH ∧
      HEIGHT ≤ dispatchGroups HEIGHT threads * threads ∧
      (dispatchGroups HEIGHT threads - 1) * threads < HEIGHT := by
  obtain ⟨hwa, hwb, hwc⟩ := dispatchGroups_spec WIDTH threads (by norm_num [WIDTH]) hT
  obtain ⟨hha, hhb, hhc⟩ := dispatchGroups_spec HEIGHT threads (by norm_num [HEIGHT]) hT
  have hw : inp.width ≠ 0 := by omega
  have hh : inp.height ≠ 0 := by omega
  refine ⟨[Cmd.dispatch (dispatchGroups WIDTH threads) (dispatchGroups HEIGHT threads) 1,
    Cmd.blit (letterbox inp.width inp.height)], ?_, by simp, hwc, hhc, hwa, hwb, hha, hhb⟩
  rw [drawStep, if_neg (by simp [h1]), if_neg (by simp [h2]), if_neg (by simp [h3, hw, hh])]
  simp [h6]

/-- Witness for `C8_dispatch_covers` with `threads = 16` on a 100 x 100 target:
the dispatch records 60 x 45 groups. -/
theorem C8_dispatch_covers_witness :
    (0 < 16 ∧ (DrawInput.mk true true true 100 100 true).computePassOk = true) ∧
    ∃ cmds,
      (drawStep 16 initState (DrawInput.mk true true true 100 100 true)).2 =
        DrawResult.submitted cmds ∧
      Cmd.dispatch (dispatchGroups WIDTH 16) (dispatchGroups HEIGHT 16) 1 ∈ cmds ∧
      dispatchGroups WIDTH 16 = ⌈(WIDTH : ℚ) / (16 : ℚ)⌉₊ ∧
      dispatchGroups HEIGHT 16 = ⌈(HEIGHT : ℚ) / (16 : ℚ)⌉₊ ∧
      WIDTH ≤ dispatchGroups WIDTH 16 * 16 ∧
      (dispatchGroups WIDTH 16 - 1) * 16 < WIDTH ∧
      HEIGHT ≤ dispatchGroups HEIGHT 16 * 16 ∧
      (dispatchGroups HEIGHT 16 - 1) * 16 < HEIGHT := by
  refine ⟨⟨by norm_num, rfl⟩, ?_⟩
  have h := C8_dispatch_covers 16 initState (DrawInput.mk true true true 100 100 true)
    (by norm_num) rfl rfl rfl (by norm_num) (by norm_num) rfl
  simpa using h

/-- C10: the last clause fails on the code: a frame whose compute pass cannot
begin records no dispatch, yet the uniform parameter record HAS been
recomputed (its `Aspect` changes from the zero-initialized 0 to
`WIDTH/HEIGHT`), because `Draw` rebuilds the parameters before beginning the
compute pass. -/
theorem C10_counterexample :
    (drawStep 16 initState (DrawInput.mk true true true 3 3 false)).2 =
      DrawResult.submitted [] ∧
    (∀ gx gy gz, Cmd.dispatch gx gy gz ∉ ([] : List Cmd)) ∧
    (drawStep 16 initState (DrawInput.mk true true true 3 3 false)).1.uniform.Aspect ≠
      initState.uniform.Aspect := by
  refine ⟨?_, by simp, ?_⟩
  · rw [drawStep]; simp
  · rw [drawStep]
    simp [buildUniform, initState, initUniform]
    norm_num [WIDTH, HEIGHT]

/-- C10 (amended): each of the three skip cases — command-buffer acquisition
failure, swapchain acquisition failure, zero-area target — leaves the host
state (yaw, pitch, distance, and every uniform field) exactly as it was; and
any state change at all is exactly the uniform rebuild, which happens
precisely on frames that pass the zero-area check (those frames dispatch
unless compute-pass creation fails). -/
theorem C10_amended (threads : ℕ) (s : AppState) (inp : DrawInput) :
    (inp.commandBufferOk = false → (drawStep threads s inp).1 = s) ∧
    (inp.swapchainOk = false → (drawStep threads s inp).1 = s) ∧
    (inp.swapchainTextureOk = false ∨ inp.width = 0 ∨ inp.height = 0 →
      (drawStep threads s inp).1 = s) ∧
    ((drawStep threads s inp).1 ≠ s →
      inp.commandBufferOk = true ∧ inp.swapchainOk = true ∧
        inp.swapchainTextureOk = true ∧ 0 < inp.width ∧ 0 < inp.height ∧
        (drawStep threads s inp).1 =
          { s with uniform := buildUniform s.yaw s.pitch s.distance s.uniform }) := by
  refine ⟨?_, ?_, ?_, ?_⟩
  · intro h
    rw [drawStep, if_pos h]
  · intro h
    by_cases h1 : inp.commandBufferOk = false
    · rw [drawStep, if_pos h1]
    · rw [drawStep, if_neg h1, if_pos h]
  · intro h
    by_cases h1 : inp.commandBufferOk = false
    · rw [drawStep, if_pos h1]
    · by_cases h2 : inp.swapchainOk = false
      · rw [drawStep, if_neg h1, if_pos h2]
      · rw [drawStep, if_neg h1, if_neg h2, if_pos h]
  · intro hne
    by_cases h1 : inp.commandBufferOk = false
    · exact absurd (by rw [drawStep, if_pos h1]) hne
    by_cases h2 : inp.swapchainOk = false
    · exact absurd (by rw [drawStep, if_neg h1, if_pos h2]) hne
    by_cases h3 : inp.swapchainTextureOk = false ∨ inp.width = 0 ∨ inp.height = 0
    · exact absurd (by rw [drawStep, if_neg h1, if_neg h2, if_pos h3]) hne
    push_neg at h3
    refine ⟨by simpa using h1, by simpa using h2, by simpa using h3.1, by omega, by omega, ?_⟩
    rw [drawStep, if_neg h1, if_neg h2, if_neg (by simp [h3.1, h3.2.1, h3.2.2])]
    by_cases h6 : inp.computePassOk = false <;> simp [h6]

/-- Witness for `C10_amended`: a concrete command-buffer acquisition failure
leaves the initial state untouched. -/
theorem C10_amended_witness :
    (DrawInput.mk false true true 2 2 true).commandBufferOk = false ∧
    (drawStep 16 initState (DrawInput.mk false true true 2 2 true)).1 = initState :=
  ⟨rfl, (C10_amended 16 initState (DrawInput.mk false true true 2 2 true)).1 rfl⟩

/-! Helper lemmas about the pitch clamp and the camera basis. -/

lemma kClamp_pos : 0 < kClamp := by
  rw [kClamp]
  nlinarith [Real.pi_gt_three]

lemma kClamp_lt_pi_div_two : kClamp < Real.pi / 2 := by
  rw [kClamp]
  norm_num

lemma kClamp_lt_two : kClamp < 2 := by
  rw [kClamp]
  nlinarith [Real.pi_lt_d2]

lemma sclamp_mem (v : ℝ) :
    -kClamp ≤ sclamp v (-kClamp) kClamp ∧ sclamp v (-kClamp) kClamp ≤ kClamp := by
  have hk := kClamp_pos
  exact ⟨le_min (by linarith) (le_max_left _ _), min_le_left _ _⟩

lemma applyEvent_pitch_le (s : AppState) (e : Event) (h : |s.pitch| ≤ kClamp) :
    |(applyEvent s e).pitch| ≤ kClamp := by
  cases e with
  | wheel y => simpa [applyEvent] using h
  | motion lb dx dy =>
    by_cases hl : lb
    · simp only [applyEvent, hl, if_true]
      exact abs_le.mpr ⟨(sclamp_mem _).1, (sclamp_mem _).2⟩
    · simpa [applyEvent, hl] using h
  | quit => simpa [applyEvent] using h

lemma cos_pitch_pos {pitch : ℝ} (h : |pitch| ≤ kClamp) : 0 < Real.cos pitch := by
  have h2 := kClamp_lt_pi_div_two
  have h3 := abs_le.mp h
  exact Real.cos_pos_of_mem_Ioo ⟨by linarith [h3.1], by linarith [h3.2]⟩

lemma normalize_of_vnorm_one (v : Vec3) (h : vnorm v = 1) : normalize v = v := by
  rw [normalize, h]
  simp

/-- C2: the claim that pitch stays STRICTLY inside the clamp band fails: a
single saturating drag drives the pitch to exactly the clamp bound `kClamp`
(`std::clamp` attains its bounds). Starting from pitch 0, a drag with
`yrel = 1000` gives `pitch + yrel * kPan = 2 > kClamp`, so the stored pitch
equals `kClamp` exactly, not strictly less. -/
theorem C2_counterexample :
    (applyEvent initState (Event.motion true 0 1000)).pitch = kClamp ∧
    ¬ |(applyEvent initState (Event.motion true 0 1000)).pitch| < kClamp := by
  have hk := kClamp_pos
  have hk2 := kClamp_lt_two
  have hp : (applyEvent initState (Event.motion true 0 1000)).pitch
      = sclamp (initState.pitch + 1000 * (kPan : ℝ)) (-kClamp) kClamp := by
    simp [applyEvent]
  have harg : initState.pitch + 1000 * (kPan : ℝ) = 2 := by
    norm_num [initState, kPan]
  have hsc : sclamp 2 (-kClamp) kClamp = kClamp := by
    rw [sclamp, max_eq_right (by linarith), min_eq_left (by linarith)]
  have hfin : (applyEvent initState (Event.motion true 0 1000)).pitch = kClamp := by
    rw [hp, harg, hsc]
  refine ⟨hfin, ?_⟩
  rw [hfin, abs_of_pos hk]
  exact lt_irrefl _

/-- C2 (amended): for every drag sequence starting with a pitch in the closed
clamp band `[-kClamp, kClamp]` (as the program does, starting at 0), the pitch
stays in the closed band — it may equal the bound exactly after a saturating
drag — and since `kClamp < π/2` it never reaches ±π/2. -/
theorem C2_pitch_clamped (s : AppState) (evs : List Event) (h : |s.pitch| ≤ kClamp) :
    |(evs.foldl applyEvent s).pitch| ≤ kClamp ∧
    |(evs.foldl applyEvent s).pitch| < Real.pi / 2 := by
  have hmain : |(evs.foldl applyEvent s).pitch| ≤ kClamp := by
    induction evs generalizing s with
    | nil => exact h
    | cons e tl ih => exact ih _ (applyEvent_pitch_le s e h)
  exact ⟨hmain, lt_of_le_of_lt hmain kClamp_lt_pi_div_two⟩

/-- Witness for `C2_pitch_clamped` from the initial state (pitch 0) after one
drag event. -/
theorem C2_pitch_clamped_witness :
    |initState.pitch| ≤ kClamp ∧
    (|(([Event.motion true 3 4]).foldl applyEvent initState).pitch| ≤ kClamp ∧
      |(([Event.motion true 3 4]).foldl applyEvent initState).pitch| < Real.pi / 2) := by
  have h0 : |initState.pitch| ≤ kClamp := by
    rw [show initState.pitch = 0 from rfl, abs_zero]
    exact kClamp_pos.le
  exact ⟨h0, C2_pitch_clamped initState [Event.motion true 3 4] h0⟩

/-- C3: for every yaw and every pitch in the clamp band, the frame-parameter
builder produces forward = normalize of the spherical parameterization,
right = normalize(forward x world-up), up = normalize(right x forward), and
the triple is an exactly orthonormal right-handed basis: all pairwise dot
products are 0, all three norms are 1, and right x forward = up. -/
theorem C3_basis (yaw pitch dist : ℝ) (u : UniformBuffer) (h : |pitch| ≤ kClamp) :
    ((buildUniform yaw pitch dist u).CameraForward =
      normalize ⟨Real.cos pitch * Real.cos yaw, Real.sin pitch,
        Real.cos pitch * Real.sin yaw⟩ ∧
    (buildUniform yaw pitch dist u).CameraRight =
      normalize (cross (buildUniform yaw pitch dist u).CameraForward worldUp) ∧
    (buildUniform yaw pitch dist u).CameraUp =
      normalize (cross (buildUniform yaw pitch dist u).CameraRight
        (buildUniform yaw pitch dist u).CameraForward)) ∧
    (dot (buildUniform yaw pitch dist u).CameraForward
        (buildUniform yaw pitch dist u).CameraRight = 0 ∧
    dot (buildUniform yaw pitch dist u).CameraForward
        (buildUniform yaw pitch dist u).CameraUp = 0 ∧
    dot (buildUniform yaw pitch dist u).CameraRight
        (buildUniform yaw pitch dist u).CameraUp = 0 ∧
    vnorm (buildUniform yaw pitch dist u).CameraForward = 1 ∧
    vnorm (buildUniform yaw pitch dist u).CameraRight = 1 ∧
    vnorm (buildUniform yaw pitch dist u).CameraUp = 1) ∧
    cross (buildUniform yaw pitch dist u).CameraRight
      (buildUniform yaw pitch dist u).CameraForward =
      (buildUniform yaw pitch dist u).CameraUp := by
  have hcp : 0 < Real.cos pitch := cos_pitch_pos h
  set cp := Real.cos pitch with hcpd
  set sp := Real.sin pitch with hspd
  set cy := Real.cos yaw with hcyd
  set sy := Real.sin yaw with hsyd
  have hy : sy ^ 2 + cy ^ 2 = 1 := Real.sin_sq_add_cos_sq yaw
  have hp2 : sp ^ 2 + cp ^ 2 = 1 := Real.sin_sq_add_cos_sq pitch
  have hfdot : dot ⟨cp * cy, sp, cp * sy⟩ ⟨cp * cy, sp, cp * sy⟩ = 1 := by
    simp only [dot]
    nlinarith [hy, hp2]
  have hfnorm : vnorm ⟨cp * cy, sp, cp * sy⟩ = 1 := by
    rw [vnorm, hfdot, Real.sqrt_one]
  have hF : (buildUniform yaw pitch dist u).CameraForward = ⟨cp * cy, sp, cp * sy⟩ := by
    rw [show (buildUniform yaw pitch dist u).CameraForward
      = normalize ⟨cp * cy, sp, cp * sy⟩ from rfl]
    exact normalize_of_vnorm_one _ hfnorm
  have hr0 : cross ⟨cp * cy, sp, cp * sy⟩ worldUp = ⟨-(cp * sy), 0, cp * cy⟩ := by
    ext <;> simp [cross, worldUp]
  have hr0dot : dot ⟨-(cp * sy), 0, cp * cy⟩ ⟨-(cp * sy), 0, cp * cy⟩ = cp ^ 2 := by
    simp only [dot]
    nlinarith [hy]
  have hr0norm : vnorm ⟨-(cp * sy), 0, cp * cy⟩ = cp := by
    rw [vnorm, hr0dot, Real.sqrt_sq hcp.le]
  have hRdef : (buildUniform yaw pitch dist u).CameraRight
      = normalize (cross (buildUniform yaw pitch dist u).CameraForward worldUp) := rfl
  have hR : (buildUniform yaw pitch dist u).CameraRight = ⟨-sy, 0, cy⟩ := by
    rw [hRdef, hF, hr0, normalize, hr0norm]
    ext <;> field_simp <;> ring
  have hu0 : cross ⟨-sy, 0, cy⟩ ⟨cp * cy, sp, cp * sy⟩ = ⟨-(cy * sp), cp, -(sy * sp)⟩ := by
    simp only [cross, Vec3.mk.injEq]
    refine ⟨by ring, ?_, by ring⟩
    linear_combination cp * hy
  have hu0dot : dot ⟨-(cy * sp), cp, -(sy * sp)⟩ ⟨-(cy * sp), cp, -(sy * sp)⟩ = 1 := by
    simp only [dot]
    nlinarith [hy, hp2]
  have hu0norm : vnorm ⟨-(cy * sp), cp, -(sy * sp)⟩ = 1 := by
    rw [vnorm, hu0dot, Real.sqrt_one]
  have hUdef : (buildUniform yaw pitch dist u).CameraUp
      = normalize (cross (buildUniform yaw pitch dist u).CameraRight
          (buildUniform yaw pitch dist u).CameraForward) := rfl
  have hU : (buildUniform yaw pitch dist u).CameraUp = ⟨-(cy * sp), cp, -(sy * sp)⟩ := by
    rw [hUdef, hR, hF, hu0]
    exact normalize_of_vnorm_one _ hu0norm
  have hrdot : dot ⟨-sy, 0, cy⟩ ⟨-sy, 0, cy⟩ = 1 := by
    simp only [dot]
    linear_combination hy
  refine ⟨⟨rfl, hRdef, hUdef⟩, ⟨?_, ?_, ?_, ?_, ?_, ?_⟩, ?_⟩
  · rw [hF, hR]
    simp only [dot]
    ring
  · rw [hF, hU]
    simp only [dot]
    linear_combination (-(cp * sp)) * hy
  · rw [hR, hU]
    simp only [dot]
    ring
  · rw [hF]
    exact hfnorm
  · rw [hR, vnorm, hrdot, Real.sqrt_one]
  · rw [hU]
    exact hu0norm
  · rw [hR, hF, hU]
    exact hu0

/-- Witness for `C3_basis` at yaw = 0, pitch = 0, distance = 1. -/
theorem C3_basis_witness :
    |(0 : ℝ)| ≤ kClamp ∧
    (dot (buildUniform 0 0 1 initUniform).CameraForward
        (buildUniform 0 0 1 initUniform).CameraRight = 0 ∧
    dot (buildUniform 0 0 1 initUniform).CameraForward
        (buildUniform 0 0 1 initUniform).CameraUp = 0 ∧
    dot (buildUniform 0 0 1 initUniform).CameraRight
        (buildUniform 0 0 1 initUniform).CameraUp = 0 ∧
    vnorm (buildUniform 0 0 1 initUniform).CameraForward = 1 ∧
    vnorm (buildUniform 0 0 1 initUniform).CameraRight = 1 ∧
    vnorm (buildUniform 0 0 1 initUniform).CameraUp = 1) := by
  have h0 : |(0 : ℝ)| ≤ kClamp := by
    rw [abs_zero]
    exact kClamp_pos.le
  exact ⟨h0, (C3_basis 0 0 1 initUniform h0).2.1⟩

end BHSim
